import Mathlib

/- Verification development for the BikramSambat (BS) date library: the BS
date entity, its per-year calendar tables, the date arithmetic
(addYears/addMonths/addDays), the AD <-> BS conversions, and the string
formatting layer, together with theorems about them.

The mutable BikramSambat class instance is embedded as an immutable record; a
method that mutates `this` becomes a function returning the new record.  A
method call that would raise a JS exception (a table lookup on a year outside
the tabulated range returns undefined and the subsequent indexing throws a
TypeError) is modelled by an Option result, none standing for the exception.

Gregorian calendar dates are represented by their day number in a proleptic
linear day count (the spec fixes the day-arithmetic helpers to such a
day-number scheme), anchored so that day 0 is the BS 2075 New Year. -/

namespace NDP

/-- Modelled from the spec: the exact invalid-date marker string exported by
the data module (not under src); the spec fixes it to the literal below. -/
def InvalidDate : String := "Invalid Date"

/-- The BS date entity of the source class: fields year, month, day, each a
JS number or undefined.  The unset value (undefined, and the NaN obtained by
copying an unset date, which behaves the same in every operation modelled
here) is none. -/
structure BikramSambat where
  year : Option Int
  month : Option Int
  day : Option Int
deriving DecidableEq

/-- The all-unset state produced by `new BikramSambat()`. -/
def unsetBS : BikramSambat := ⟨none, none, none⟩

/-- JS array indexing with a possibly negative index: a negative or
out-of-bounds index yields undefined (none). -/
def arrGet {α : Type} (l : List α) (i : Int) : Option α :=
  if i < 0 then none else l.get? i.toNat

/-- Modelled from the spec: days-per-month row for BS year 2075 from the
calendar tables (not under src).  Sum 365; Ashar (month 3) has 32 days and
Shrawan (month 4) has 31 days, the concrete values the spec quotes. -/
def bsMonthLengths2075 : List Int := [31, 31, 32, 31, 31, 31, 30, 29, 30, 29, 30, 30]

/-- Modelled from the spec: days-per-month row for BS year 2076 (sum 365). -/
def bsMonthLengths2076 : List Int := [31, 32, 31, 32, 31, 30, 30, 30, 29, 30, 29, 30]

/-- Modelled from the spec: days-per-month row for BS year 2077 (sum 366,
a BS leap year per the table-sum rule). -/
def bsMonthLengths2077 : List Int := [31, 32, 31, 32, 31, 30, 30, 30, 29, 30, 29, 31]

/-- Modelled from the spec: the DaysInMonthsMappingData table (not under
src) restricted to a three-year window; a year outside the window has no row
(undefined in JS). -/
def daysInMonthMap (y : Int) : Option (List Int) :=
  if y = 2075 then some bsMonthLengths2075
  else if y = 2076 then some bsMonthLengths2076
  else if y = 2077 then some bsMonthLengths2077
  else none

/-- Modelled from the spec: the NewYearMappingData table (not under src),
mapping a BS year to the Gregorian day number of its New Year.  Consecutive
entries differ by the corresponding row sum (365, 365, 366), as the calendar
requires; day 0 anchors BS 2075-01-01. -/
def newYearMap (y : Int) : Option Int :=
  if y = 2075 then some 0
  else if y = 2076 then some 365
  else if y = 2077 then some 730
  else if y = 2078 then some 1096
  else none

/-- Modelled from the spec: the BS years fully covered by the modelled
tables (month-length row, New Year date and successor New Year date all
tabulated), i.e. the tabulated range of this development. -/
def inTabulatedRange (y : Int) : Bool :=
  decide (y = 2075 ∨ y = 2076 ∨ y = 2077)

/-- Modelled from the spec: the tabulated years in increasing order, the
scan order of the New-Year resolver. -/
def tabulatedYears : List Int := [2075, 2076, 2077]

/-- Result of the source getDaysInMonth method, including the JS behaviors:
NaN when month or year is undefined (and undefined when the month index is
out of the row, which every caller treats the same as NaN, so the two are
merged), and a thrown TypeError when the year has no row. -/
inductive DaysInMonthResult
  | thrown
  | nan
  | val (n : Int)
deriving DecidableEq

/-- getDaysInMonth (source lines 252-257): NaN if month or year is unset;
otherwise daysInMonthMap[year][month-1], which throws if the row is missing
and is undefined if the index is out of bounds. -/
def getDaysInMonthRes (s : BikramSambat) : DaysInMonthResult :=
  match s.month, s.year with
  | some m, some y =>
    match daysInMonthMap y with
    | none => .thrown
    | some row =>
      match arrGet row (m - 1) with
      | none => .nan
      | some v => .val v
  | _, _ => .nan

/-- addYears (source lines 176-182): no-op when year is unset, otherwise
adds to the year field only. -/
def addYears (n : Int) (s : BikramSambat) : BikramSambat :=
  match s.year with
  | none => s
  | some y => ⟨some (y + n), s.month, s.day⟩

/-- The month/year normalisation loop of addMonths (the adjustYear recursion
of source lines 194-218, restricted to its counters: the state is only
written in the final branch, handled by the caller).  Structural fuel makes
the definition computable; addMonths supplies enough fuel for the loop to
reach its base case. -/
def normalizeMonths : Nat → Int → Int → Int × Int
  | 0, t, yy => (t, yy)
  | fuel + 1, t, yy =>
    if 12 < t then normalizeMonths fuel (t - 12) (yy + 1)
    else if t ≤ 0 then normalizeMonths fuel (t + 12) (yy - 1)
    else (t, yy)

/-- addMonths (source lines 189-220): no-op when month or year is unset;
otherwise normalises month + n into 1..12 carrying whole years, applies
addYears, and finally clamps a truthy day that exceeds the updated month's
length (getDaysInMonth on the updated state: none result = thrown lookup). -/
def addMonths (n : Int) (s : BikramSambat) : Option BikramSambat :=
  match s.month, s.year with
  | some m, some _ =>
    let t := m + n
    let p := normalizeMonths (t.natAbs + 1) t 0
    let s2 := addYears p.2 ⟨s.year, some p.1, s.day⟩
    match getDaysInMonthRes s2 with
    | .thrown => none
    | .nan => some s2
    | .val len =>
      match s2.day with
      | some d => if d ≠ 0 ∧ len < d then some ⟨s2.year, s2.month, some len⟩ else some s2
      | none => some s2
  | _, _ => some s

/-- The adjustMonth recursion of addDays (source lines 232-244), with
structural fuel (none on exhaustion; callers supply enough).  In the branch
where getDaysInMonth is NaN (month set but year unset) or undefined, the JS
comparisons with NaN are both false; a non-positive running total still
enters the decrement branch and the next iteration runs with a NaN total,
which immediately stores NaN into day (unless getDaysInMonth throws there);
that one-step unrolling is written out below. -/
def adjustMonth : Nat → Int → BikramSambat → Option BikramSambat
  | 0, _, _ => none
  | fuel + 1, r, s =>
    match getDaysInMonthRes s with
    | .thrown => none
    | .nan =>
      if r ≤ 0 then
        match addMonths (-1) s with
        | none => none
        | some s1 =>
          match getDaysInMonthRes s1 with
          | .thrown => none
          | _ => some ⟨s1.year, s1.month, none⟩
      else some ⟨s.year, s.month, some r⟩
    | .val len =>
      if len < r then
        match addMonths 1 s with
        | none => none
        | some s1 => adjustMonth fuel (r - len) s1
      else if r ≤ 0 then
        match addMonths (-1) s with
        | none => none
        | some s1 => adjustMonth fuel (len + r) s1
      else some ⟨s.year, s.month, some r⟩

/-- addDays (source lines 227-246): no-op when day or month is unset;
otherwise runs the carry recursion on day + n.  Note the decrement branch of
the source adds the length of the month it is leaving (computed before
addMonths(-1)) to the running total. -/
def addDays (n : Int) (s : BikramSambat) : Option BikramSambat :=
  match s.day, s.month with
  | some d, some _ => adjustMonth ((d + n).natAbs + 2) (d + n) s
  | _, _ => some s

/-- Modelled from the spec: daysFromBsNewYear (utils, not under src): the
1-based day offset of (year, month, day) from that year's New Year, the sum
of the month lengths before `month` plus `day`; LookupError (none) when the
table lookup fails.  The day itself is not validated, per the spec. -/
def getDaysFromBsNewYear (y m d : Int) : Option Int :=
  match daysInMonthMap y with
  | none => none
  | some row =>
    if 1 ≤ m ∧ m ≤ 13 then some ((row.take (m - 1).toNat).sum + d) else none

/-- Modelled from the spec: addDaysToGregorianDate (utils, not under src);
on the day-number representation, moving n days is addition. -/
def addDaysToGregorianDate (dt n : Int) : Int := dt + n

/-- Modelled from the spec: getDaysBetweenTwoAdDates (utils, not under src);
the signed day count from the second date to the first, a difference of day
numbers. -/
def getDaysBetweenTwoAdDates (a b : Int) : Int := a - b

/-- Modelled from the spec: the per-year probe of the New-Year resolver:
succeeds on the unique year whose New Year is ≤ the date while the successor
New Year is past it. -/
def nyProbe (g : Int) (y : Int) : Option (Int × Int) :=
  match newYearMap y, newYearMap (y + 1) with
  | some a, some b => if a ≤ g ∧ g < b then some (a, y) else none
  | _, _ => none

/-- Modelled from the spec: getNewYearDateInfo (utils, not under src): scan
the tabulated years in increasing order for the one whose half-open New-Year
interval contains the Gregorian date; LookupError (none) on exhaustion. -/
def getNewYearDateInfo (g : Int) : Option (Int × Int) :=
  tabulatedYears.findSome? (nyProbe g)

/-- Result of toGregorian.  The source silently answers the current system
date (`new Date()`) when a field is falsy; that outcome is the sentinel
`now`.  `err` stands for a failed table access (a thrown LookupError from
the day-offset helper, or the invalid Date produced from a missing New Year
entry).  `date n` is a real Gregorian date, as a day number. -/
inductive GregorianResult
  | now
  | err
  | date (dayNumber : Int)
deriving DecidableEq

/-- toGregorian instance method (source lines 131-146).  JS truthiness: an
unset field (undefined or NaN) and the number 0 are falsy, and the source
then returns the current date. -/
def toGregorian (s : BikramSambat) : GregorianResult :=
  match s.year, s.month, s.day with
  | some y, some m, some d =>
    if y = 0 ∨ m = 0 ∨ d = 0 then .now
    else
      match getDaysFromBsNewYear y m d, newYearMap y with
      | some off, some nyd => .date (addDaysToGregorianDate nyd (off - 1))
      | _, _ => .err
  | _, _, _ => .now

/-- static toBikramSambat (source lines 153-169).  The argument is a valid
Gregorian date (its day number) or none for the undefined / unparseable /
invalid-Date inputs, which the source maps to the unset BS date before any
table access.  For a valid date it resolves the BS year, constructs the BS
New Year date (the parser collaborator reads the year-01-01 string back as
(year, 1, 1)) and walks forward with addDays; a resolver LookupError
propagates as none. -/
def toBikramSambat (input : Option Int) : Option BikramSambat :=
  match input with
  | none => some unsetBS
  | some g =>
    match getNewYearDateInfo g with
    | none => none
    | some (nyd, yr) =>
      addDays (getDaysBetweenTwoAdDates g nyd) ⟨some yr, some 1, some 1⟩

/-- The BS -> AD -> BS composite: convert with toGregorian, feed the
resulting real date back through the static toBikramSambat. -/
def bsRoundTrip (s : BikramSambat) : Option BikramSambat :=
  match toGregorian s with
  | .date g => toBikramSambat (some g)
  | _ => none

/-- The AD -> BS -> AD composite: convert a Gregorian day number to BS and
back with toGregorian. -/
def adRoundTrip (g : Int) : GregorianResult :=
  match toBikramSambat (some g) with
  | some s => toGregorian s
  | none => .err

/-- Decimal rendering of a JS number holding an integer. -/
def numToStr (n : Int) : String := toString n

/-- JS String.prototype.padStart(2, the zero character). -/
def padStart2 (s : String) : String :=
  if 2 ≤ s.length then s
  else if s.length = 1 then "0" ++ s
  else "00" ++ s

/-- Modelled from the spec: isDayValid from the parser module (not under
src): a boolean with no failure mode, true exactly when 1 ≤ day ≤
daysInMonth(year, month); a failing table lookup (year outside the tables
or month outside 1..12) therefore yields false. -/
def isDayValid (y m d : Int) : Bool :=
  match daysInMonthMap y with
  | none => false
  | some row =>
    match arrGet row (m - 1) with
    | none => false
    | some len => decide (1 ≤ d) && decide (d ≤ len)

/-- toString (source lines 99-113): the invalid marker when a field is unset
or the triple fails isDayValid, else the year, zero-padded month and
zero-padded day joined by dashes. -/
def toString (s : BikramSambat) : String :=
  match s.year, s.month, s.day with
  | some y, some m, some d =>
    if isDayValid y m d then
      numToStr y ++ "-" ++ padStart2 (numToStr m) ++ "-" ++ padStart2 (numToStr d)
    else InvalidDate
  | _, _, _ => InvalidDate

/-- The Month type of data/nepali-months.ts: an English name, a
Nepali-script name and an approximate Gregorian month-pair label. -/
structure Month where
  en : String
  np : String
  ad : String
deriving DecidableEq

/-- The month descriptor table of data/nepali-months.ts, verbatim: the 12
descriptors in calendar order. -/
def NepaliMonthsData : List Month :=
  [⟨"Baisakh", "बैशाख", "Apr/May"⟩,
   ⟨"Jestha", "जेठ", "May/Jun"⟩,
   ⟨"Ashad", "असार", "Jun/Jul"⟩,
   ⟨"Shrawn", "श्रावण", "Jul/Aug"⟩,
   ⟨"Bhadra", "भदौ", "Aug/Sep"⟩,
   ⟨"Ashoj", "आश्विन", "Sep/Oct"⟩,
   ⟨"Kartik", "कार्तिक", "Oct/Nov"⟩,
   ⟨"Mangshir", "मंसिर", "Nov/Dec"⟩,
   ⟨"Paush", "पुष", "Dec/Jan"⟩,
   ⟨"Magh", "माघ", "Jan/Feb"⟩,
   ⟨"Falgun", "फाल्गुन", "Feb/Mar"⟩,
   ⟨"Chaitra", "चैत्र", "Mar/Apr"⟩]

/-- What a JS caller of getPreviousMonth / getNextMonth can observe: the
explicit null of the unset branch, the undefined produced by an
out-of-bounds array read, or a Month descriptor. -/
inductive JsMonthRes
  | jsNull
  | jsUndefined
  | month (m : Month)
deriving DecidableEq

/-- getPreviousMonth (source lines 283-289): null when month is falsy, else
the descriptor at index (month == 1 ? 12 : month - 1) - 1. -/
def getPreviousMonth (s : BikramSambat) : JsMonthRes :=
  match s.month with
  | none => .jsNull
  | some mv =>
    if mv = 0 then .jsNull
    else
      match arrGet NepaliMonthsData ((if mv = 1 then (12 : Int) else mv - 1) - 1) with
      | none => .jsUndefined
      | some md => .month md

/-- getNextMonth (source lines 291-297): null when month is falsy, else the
descriptor at index ((month + 1) % 12) - 1, the % being the truncating JS
remainder. -/
def getNextMonth (s : BikramSambat) : JsMonthRes :=
  match s.month with
  | none => .jsNull
  | some mv =>
    if mv = 0 then .jsNull
    else
      match arrGet NepaliMonthsData ((mv + 1).tmod 12 - 1) with
      | none => .jsUndefined
      | some md => .month md

/-- The three constructor argument shapes: a string, an existing instance,
or no argument (undefined). -/
inductive CtorArg
  | fromStr (text : String)
  | fromBS (b : BikramSambat)
  | undef

/-- getYear (source lines 61-63) returns the field or NaN; NaN is modelled
by none, like undefined, as every consumer treats them alike. -/
def getYear (s : BikramSambat) : Option Int := s.year

/-- getMonth (source lines 69-71). -/
def getMonth (s : BikramSambat) : Option Int := s.month

/-- getDay (source lines 77-79). -/
def getDay (s : BikramSambat) : Option Int := s.day

/-- The constructor (source lines 28-55), parameterised by the external
parser collaborator, which returns a full (year, month, day) triple or an
invalid marker (none): a string input is parsed, with the unset state on
failure; an instance is copied through the getters; no input gives the
unset state. -/
def construct (parse : String → Option (Int × Int × Int)) : CtorArg → BikramSambat
  | .fromStr text =>
    match parse text with
    | none => ⟨none, none, none⟩
    | some (y, m, d) => ⟨some y, some m, some d⟩
  | .fromBS b => ⟨getYear b, getMonth b, getDay b⟩
  | .undef => ⟨none, none, none⟩

/-- static toGregorian (source lines 148-151): construct, then convert. -/
def toGregorianStatic (parse : String → Option (Int × Int × Int)) (a : CtorArg) : GregorianResult :=
  toGregorian (construct parse a)

/-- One component of the formatter's substitution order. -/
inductive DateComponent
  | year
  | month
  | day

/-- Modelled from the spec: generateDateFormatOrder (utils, not under src);
the spec fixes the token substitution order to year, then month, then day. -/
def generateDateFormatOrder (_fmt : String) : List DateComponent :=
  [.year, .month, .day]

/-- Strip a pattern from the front of a character list, or fail. -/
def dropPrefixCh : List Char → List Char → Option (List Char)
  | [], l => some l
  | _, [] => none
  | p :: ps, c :: cs => if c = p then dropPrefixCh ps cs else none

/-- Replace the first (leftmost) occurrence of a pattern in a character
list. -/
def replaceFirstCh (pat rep : List Char) : List Char → List Char
  | [] =>
    match dropPrefixCh pat [] with
    | some rest => rep ++ rest
    | none => []
  | c :: cs =>
    match dropPrefixCh pat (c :: cs) with
    | some rest => rep ++ rest
    | none => c :: replaceFirstCh pat rep cs

/-- JS String.prototype.replace with a plain-string pattern: replace the
first occurrence only. -/
def replaceFirst (s pat rep : String) : String :=
  ⟨replaceFirstCh pat.data rep.data s.data⟩

/-- JS String.prototype.slice with a negative start: the last n characters. -/
def takeRight (n : Nat) (s : String) : String := s.drop (s.length - n)

/-- The YYYY substitution token of the formatter. -/
def tokYYYY : String := "YYYY"

/-- The YYY substitution token. -/
def tokYYY : String := "YYY"

/-- The YY substitution token. -/
def tokYY : String := "YY"

/-- The MMMM substitution token. -/
def tokMMMM : String := "MMMM"

/-- The MM substitution token. -/
def tokMM : String := "MM"

/-- The DD substitution token. -/
def tokDD : String := "DD"

/-- The English month names, as derived in the formatter source. -/
def MonthNamesEn : List String := NepaliMonthsData.map Month.en

/-- One iteration of the formatter's forEach (format source lines 27-46):
each truthy component substitutes its tokens, longest first. -/
def applyComponent (s : BikramSambat) (acc : String) (c : DateComponent) : String :=
  match c with
  | .year =>
    match getYear s with
    | some y =>
      if y ≠ 0 then
        replaceFirst (replaceFirst (replaceFirst acc tokYYYY (numToStr y))
          tokYYY (takeRight 3 (numToStr y))) tokYY (takeRight 2 (numToStr y))
      else acc
    | none => acc
  | .month =>
    match getMonth s with
    | some mv =>
      if mv ≠ 0 then
        match arrGet MonthNamesEn (mv - 1) with
        | some nm =>
          if nm ≠ "" then
            replaceFirst (replaceFirst acc tokMMMM nm) tokMM (padStart2 (numToStr mv))
          else acc
        | none => acc
      else acc
    | none => acc
  | .day =>
    match getDay s with
    | some dv =>
      if dv ≠ 0 then replaceFirst acc tokDD (padStart2 (numToStr dv)) else acc
    | none => acc

/-- format (format source lines 18-48): the exact invalid marker whenever
toString yields it, else token substitution over the template in the
generated component order. -/
def format (s : BikramSambat) (fmt : String) : String :=
  if toString s = InvalidDate then InvalidDate
  else (generateDateFormatOrder fmt).foldl (applyComponent s) fmt

/-- A character between the zero and nine digits. -/
def isDigitCh (c : Char) : Bool := decide ('0' ≤ c) && decide (c ≤ '9')

/-- A well-formed zero-padded YYYY-MM-DD rendering: exactly ten characters,
four digits, a dash, two digits, a dash, two digits. -/
def wellFormedYMD (s : String) : Bool :=
  match s.data with
  | [y1, y2, y3, y4, s1, m1, m2, s2, d1, d2] =>
    isDigitCh y1 && isDigitCh y2 && isDigitCh y3 && isDigitCh y4 &&
    decide (s1 = '-') && isDigitCh m1 && isDigitCh m2 &&
    decide (s2 = '-') && isDigitCh d1 && isDigitCh d2
  | _ => false

/-- Modelled from the spec: the first carry loop of the addMonths algorithm,
while total is above 12 subtract 12 and carry a year (structural fuel). -/
def specWhileGT12 : Nat → Int → Int → Int × Int
  | 0, t, yy => (t, yy)
  | fuel + 1, t, yy =>
    if 12 < t then specWhileGT12 fuel (t - 12) (yy + 1) else (t, yy)

/-- Modelled from the spec: the second carry loop of the addMonths
algorithm, while total is non-positive add 12 and borrow a year. -/
def specWhileLE0 : Nat → Int → Int → Int × Int
  | 0, t, yy => (t, yy)
  | fuel + 1, t, yy =>
    if t ≤ 0 then specWhileLE0 fuel (t + 12) (yy - 1) else (t, yy)

/-- Modelled from the spec: the addMonths algorithm of the spec, stated in
its words: total = month + n, the two sequential carry loops, set the month,
apply addYears, then clamp the day to daysInMonth(year, month) when it
exceeds it (a failed lookup is the spec's LookupError); a no-op on an unset
date. -/
def addMonthsSpec (n : Int) (s : BikramSambat) : Option BikramSambat :=
  match s.month, s.year with
  | some m, some y =>
    let t := m + n
    let q := specWhileGT12 (t.natAbs + 1) t 0
    let p := specWhileLE0 (t.natAbs + 2) q.1 q.2
    let yr := y + p.2
    match daysInMonthMap yr with
    | none => none
    | some row =>
      match arrGet row (p.1 - 1) with
      | none => none
      | some len =>
        match s.day with
        | some d =>
          if len < d then some ⟨some yr, some p.1, some len⟩
          else some ⟨some yr, some p.1, some d⟩
        | none => some ⟨some yr, some p.1, none⟩
  | _, _ => some s

/-- Modelled from the spec: the daysInMonth table contract of the Calendar
Tables component: the month length, LookupError (none) when the year or
month is outside the tables. -/
def daysInMonthTbl (y m : Int) : Option Int :=
  match daysInMonthMap y with
  | none => none
  | some row => arrGet row (m - 1)

/-- Modelled from the spec: the first loop of the addDays algorithm: while
the total exceeds the current month's length, subtract that length and move
forward one month (structural fuel; none also on a LookupError). -/
def specDaysLoop1 : Nat → Int → BikramSambat → Option (Int × BikramSambat)
  | 0, _, _ => none
  | fuel + 1, r, s =>
    match s.year, s.month with
    | some y, some m =>
      match daysInMonthTbl y m with
      | none => none
      | some len =>
        if len < r then
          match addMonthsSpec 1 s with
          | none => none
          | some s1 => specDaysLoop1 fuel (r - len) s1
        else some (r, s)
    | _, _ => some (r, s)

/-- Modelled from the spec: the second loop of the addDays algorithm: while
the total is non-positive, move back one month and add the length of the
month just moved into. -/
def specDaysLoop2 : Nat → Int → BikramSambat → Option (Int × BikramSambat)
  | 0, _, _ => none
  | fuel + 1, r, s =>
    if r ≤ 0 then
      match addMonthsSpec (-1) s with
      | none => none
      | some s1 =>
        match s1.year, s1.month with
        | some y1, some m1 =>
          match daysInMonthTbl y1 m1 with
          | none => none
          | some len => specDaysLoop2 fuel (r + len) s1
        | _, _ => none
    else some (r, s)

/-- Modelled from the spec: the addDays algorithm in the spec's words:
total = day + n, the forward loop, the backward loop, then day = total; a
no-op on an unset date. -/
def addDaysSpec (n : Int) (s : BikramSambat) : Option BikramSambat :=
  match s.year, s.month, s.day with
  | some _, some _, some d =>
    match specDaysLoop1 ((d + n).natAbs + 2) (d + n) s with
    | none => none
    | some (r1, s1) =>
      match specDaysLoop2 ((d + n).natAbs + 2) r1 s1 with
      | none => none
      | some (r2, s2) => some ⟨s2.year, s2.month, some r2⟩
  | _, _, _ => some s

/-! ### Helper lemmas -/

/-- With enough fuel, the interleaved carry recursion of the source's
addMonths lands on the canonical normalised month and year delta. -/
lemma normalizeMonths_eq : ∀ (fuel : Nat) (t yy : Int),
    t ≤ 12 * fuel + 12 → 1 - 12 * fuel ≤ t →
    normalizeMonths fuel t yy = ((t - 1) % 12 + 1, yy + (t - 1) / 12) := by
  intro fuel
  induction fuel with
  | zero =>
    intro t yy h1 h2
    simp only [normalizeMonths, Prod.mk.injEq]
    omega
  | succ f ih =>
    intro t yy h1 h2
    simp only [normalizeMonths]
    by_cases hgt : 12 < t
    · rw [if_pos hgt, ih (t - 12) (yy + 1) (by omega) (by omega)]
      simp only [Prod.mk.injEq]
      omega
    · rw [if_neg hgt]
      by_cases hle : t ≤ 0
      · rw [if_pos hle, ih (t + 12) (yy - 1) (by omega) (by omega)]
        simp only [Prod.mk.injEq]
        omega
      · rw [if_neg hle]
        simp only [Prod.mk.injEq]
        omega

/-- With enough fuel, the spec's first carry loop either normalises a total
above 12 or leaves its input unchanged. -/
lemma specWhileGT12_eq : ∀ (fuel : Nat) (t yy : Int),
    t ≤ 12 * fuel + 12 →
    specWhileGT12 fuel t yy =
      if 12 < t then ((t - 1) % 12 + 1, yy + (t - 1) / 12) else (t, yy) := by
  intro fuel
  induction fuel with
  | zero =>
    intro t yy h1
    rw [if_neg (by omega)]
    rfl
  | succ f ih =>
    intro t yy h1
    simp only [specWhileGT12]
    by_cases hgt : 12 < t
    · rw [if_pos hgt, if_pos hgt, ih (t - 12) (yy + 1) (by omega)]
      by_cases hgt2 : 12 < t - 12
      · rw [if_pos hgt2]
        simp only [Prod.mk.injEq]
        omega
      · rw [if_neg hgt2]
        simp only [Prod.mk.injEq]
        omega
    · rw [if_neg hgt, if_neg hgt]

/-- With enough fuel, the spec's second carry loop either normalises a
non-positive total or leaves its input unchanged. -/
lemma specWhileLE0_eq : ∀ (fuel : Nat) (t yy : Int),
    1 - 12 * fuel ≤ t →
    specWhileLE0 fuel t yy =
      if t ≤ 0 then ((t - 1) % 12 + 1, yy + (t - 1) / 12) else (t, yy) := by
  intro fuel
  induction fuel with
  | zero =>
    intro t yy h1
    rw [if_neg (by omega)]
    rfl
  | succ f ih =>
    intro t yy h1
    simp only [specWhileLE0]
    by_cases hle : t ≤ 0
    · rw [if_pos hle, if_pos hle, ih (t + 12) (yy - 1) (by omega)]
      by_cases hle2 : t + 12 ≤ 0
      · rw [if_pos hle2]
        simp only [Prod.mk.injEq]
        omega
      · rw [if_neg hle2]
        simp only [Prod.mk.injEq]
        omega
    · rw [if_neg hle, if_neg hle]

/-- The two sequential spec loops, with the fuels addMonthsSpec supplies,
compute the same canonical normalisation as the source recursion. -/
lemma specNorm_eq (t : Int) :
    specWhileLE0 (t.natAbs + 2) (specWhileGT12 (t.natAbs + 1) t 0).1
        (specWhileGT12 (t.natAbs + 1) t 0).2 =
      ((t - 1) % 12 + 1, 0 + (t - 1) / 12) := by
  rw [specWhileGT12_eq (t.natAbs + 1) t 0 (by omega)]
  by_cases hgt : 12 < t
  · rw [if_pos hgt]
    rw [specWhileLE0_eq (t.natAbs + 2) _ _ (by omega)]
    rw [if_neg (by omega)]
  · rw [if_neg hgt]
    rw [specWhileLE0_eq (t.natAbs + 2) t 0 (by omega)]
    by_cases hle : t ≤ 0
    · rw [if_pos hle]
    · rw [if_neg hle]
      simp only [Prod.mk.injEq]
      omega

/-- Every row of the month-length table has twelve entries, each between 1
and 32. -/
lemma daysInMonthMap_facts (y : Int) (row : List Int) (h : daysInMonthMap y = some row) :
    row.length = 12 ∧ ∀ x ∈ row, 1 ≤ x ∧ x ≤ 32 := by
  unfold daysInMonthMap at h
  split_ifs at h <;> simp only [Option.some.injEq] at h <;> subst h <;>
    exact ⟨by decide, by decide⟩

/-- If the index into a JS array yields a value, the index was in bounds and
the value is a member of the list. -/
lemma arrGet_facts {α : Type} (l : List α) (i : Int) (a : α) (h : arrGet l i = some a) :
    0 ≤ i ∧ i < l.length ∧ a ∈ l := by
  unfold arrGet at h
  by_cases hi : i < 0
  · rw [if_pos hi] at h
    cases h
  · rw [if_neg hi] at h
    have hidx : i.toNat < l.length := (List.get?_eq_some.mp h).1
    exact ⟨by omega, by omega, List.get?_mem h⟩

/-- A triple accepted by isDayValid has its year in the tabulated window,
its month in 1..12 and its day in 1..32. -/
lemma isDayValid_facts (y m d : Int) (h : isDayValid y m d = true) :
    (y = 2075 ∨ y = 2076 ∨ y = 2077) ∧ 1 ≤ m ∧ m ≤ 12 ∧ 1 ≤ d ∧ d ≤ 32 := by
  unfold isDayValid at h
  split at h
  · cases h
  next row hrow =>
    have hy : y = 2075 ∨ y = 2076 ∨ y = 2077 := by
      unfold daysInMonthMap at hrow
      split_ifs at hrow with h1 h2 h3
      · exact Or.inl h1
      · exact Or.inr (Or.inl h2)
      · exact Or.inr (Or.inr h3)
    obtain ⟨hlen, hmem⟩ := daysInMonthMap_facts y row hrow
    split at h
    · cases h
    next len hget =>
      simp only [Bool.and_eq_true, decide_eq_true_eq] at h
      obtain ⟨hi0, hilt, hmemlen⟩ := arrGet_facts row (m - 1) len hget
      have := hmem len hmemlen
      rw [hlen] at hilt
      refine ⟨hy, by omega, by omega, by omega, by omega⟩

/-- Transfer a boolean check over the range 0..N-1 to an integer in that
interval. -/
lemma intAllRange0 (N : Nat) (f : Int → Bool)
    (h : (List.range N).all (fun i => f (i : Int)) = true)
    (g : Int) (h0 : 0 ≤ g) (h1 : g < (N : Int)) : f g = true := by
  have e : g = ((g.toNat : Nat) : Int) := by omega
  rw [e]
  exact List.all_eq_true.mp h _ (List.mem_range.mpr (by omega))

/-- Transfer a boolean check over the range 1..N to an integer in that
interval. -/
lemma intAllRange1 (N : Nat) (f : Int → Bool)
    (h : (List.range N).all (fun i => f ((i : Int) + 1)) = true)
    (g : Int) (h0 : 1 ≤ g) (h1 : g ≤ (N : Int)) : f g = true := by
  have e : g = (((g - 1).toNat : Nat) : Int) + 1 := by omega
  rw [e]
  exact List.all_eq_true.mp h _ (List.mem_range.mpr (by omega))

/-! ### Claim theorems -/

/-- C7: addMonths on a set BS date computes total = month + n, carries years
down while the total exceeds 12 and up while it is non-positive, stores the
normalised month, applies the year delta through addYears, and clamps the
stored day to daysInMonth(year, month) of the resulting year and month when
it exceeds it: it agrees exactly with the algorithm transcribed from the
spec's words. -/
theorem addMonths_follows_spec_algorithm (n : Int) (s : BikramSambat) (y m : Int)
    (hy : s.year = some y) (hm : s.month = some m) :
    addMonths n s = addMonthsSpec n s := by
  obtain ⟨sy, sm, sd⟩ := s
  simp only at hy hm
  subst hy
  subst hm
  simp only [addMonths, addMonthsSpec]
  rw [normalizeMonths_eq ((m + n).natAbs + 1) (m + n) 0 (by omega) (by omega), specNorm_eq]
  simp only [addYears, zero_add]
  rcases hrow : daysInMonthMap (y + (m + n - 1) / 12) with _ | row
  · simp only [getDaysInMonthRes, hrow]
  · obtain ⟨hlen, hmem⟩ := daysInMonthMap_facts _ row hrow
    have hmo1 : 1 ≤ (m + n - 1) % 12 + 1 := by omega
    have hmo2 : (m + n - 1) % 12 + 1 ≤ 12 := by omega
    have hlt : ((m + n - 1) % 12 + 1 - 1).toNat < row.length := by omega
    have hget : arrGet row ((m + n - 1) % 12 + 1 - 1) =
        some (row.get ⟨((m + n - 1) % 12 + 1 - 1).toNat, hlt⟩) := by
      unfold arrGet
      rw [if_neg (by omega)]
      exact List.get?_eq_get hlt
    have hpos : 1 ≤ row.get ⟨((m + n - 1) % 12 + 1 - 1).toNat, hlt⟩ :=
      (hmem _ (List.get_mem row _ _)).1
    simp only [getDaysInMonthRes, hrow, hget]
    cases sd with
    | none => rfl
    | some d =>
      simp only
      split_ifs with h1 h2 h2
      · rfl
      · exact absurd h1.2 h2
      · exact absurd ⟨by omega, h2⟩ h1
      · rfl

/-- C7 witness: a concrete instance of the addMonths agreement. -/
theorem addMonths_follows_spec_algorithm_witness :
    (⟨some 2075, some 11, some 30⟩ : BikramSambat).year = some 2075 ∧
    (⟨some 2075, some 11, some 30⟩ : BikramSambat).month = some 11 ∧
    addMonths 5 ⟨some 2075, some 11, some 30⟩ = addMonthsSpec 5 ⟨some 2075, some 11, some 30⟩ :=
  ⟨rfl, rfl, addMonths_follows_spec_algorithm 5 ⟨some 2075, some 11, some 30⟩ 2075 11 rfl rfl⟩

/-- Decidable statement of the BS -> AD -> BS round trip at one candidate
triple, vacuous off the valid days. -/
abbrev c1check (y m d : Int) : Bool :=
  decide (isDayValid y m d = true →
    bsRoundTrip ⟨some y, some m, some d⟩ = some ⟨some y, some m, some d⟩)

/-- Bridge from the decidable check to the round-trip statement. -/
lemma c1check_apply (y m d : Int) (h : c1check y m d = true)
    (hv : isDayValid y m d = true) :
    bsRoundTrip ⟨some y, some m, some d⟩ = some ⟨some y, some m, some d⟩ :=
  (of_decide_eq_true h) hv

/-- C1: every valid BS date (set fields, month 1..12, day within the
month's tabulated length) whose year lies in the tabulated range returns to
itself after toGregorian followed by the static toBikramSambat. -/
theorem bs_ad_bs_round_trip (y m d : Int)
    (hr : inTabulatedRange y = true) (hv : isDayValid y m d = true) :
    bsRoundTrip ⟨some y, some m, some d⟩ = some ⟨some y, some m, some d⟩ := by
  have hy : y = 2075 ∨ y = 2076 ∨ y = 2077 := of_decide_eq_true hr
  obtain ⟨-, hm1, hm2, hd1, hd2⟩ := isDayValid_facts y m d hv
  rcases hy with rfl | rfl | rfl <;> interval_cases m <;>
    · refine c1check_apply _ _ d (intAllRange1 32 _ ?_ d hd1 hd2) hv
      rfl

/-- C1 witness: the round trip at BS 2075-09-15. -/
theorem bs_ad_bs_round_trip_witness :
    inTabulatedRange 2075 = true ∧ isDayValid 2075 9 15 = true ∧
    bsRoundTrip ⟨some 2075, some 9, some 15⟩ = some ⟨some 2075, some 9, some 15⟩ :=
  ⟨rfl, rfl, bs_ad_bs_round_trip 2075 9 15 rfl rfl⟩

/-- A Gregorian day that the New-Year resolver accepts lies in the
tabulated window of day numbers. -/
lemma getNewYearDateInfo_bounds (g : Int) (h : (getNewYearDateInfo g).isSome = true) :
    0 ≤ g ∧ g < 1096 := by
  by_contra hc
  have hng : g < 0 ∨ 1096 ≤ g := by omega
  have p1 : nyProbe g 2075 = if (0:Int) ≤ g ∧ g < 365 then some ((0:Int), (2075:Int)) else none := rfl
  have p2 : nyProbe g 2076 = if (365:Int) ≤ g ∧ g < 730 then some ((365:Int), (2076:Int)) else none := rfl
  have p3 : nyProbe g 2077 = if (730:Int) ≤ g ∧ g < 1096 then some ((730:Int), (2077:Int)) else none := rfl
  rw [if_neg (by omega)] at p1
  rw [if_neg (by omega)] at p2
  rw [if_neg (by omega)] at p3
  have e : getNewYearDateInfo g = none := by
    unfold getNewYearDateInfo tabulatedYears
    simp only [List.findSome?, p1, p2, p3]
  rw [e] at h
  cases h

set_option maxRecDepth 10000 in
/-- C2: every Gregorian date inside the window resolvable to a tabulated BS
year returns to itself after the static toBikramSambat followed by
toGregorian. -/
theorem ad_bs_ad_round_trip (g : Int) (h : (getNewYearDateInfo g).isSome = true) :
    adRoundTrip g = GregorianResult.date g := by
  obtain ⟨h0, h1⟩ := getNewYearDateInfo_bounds g h
  refine of_decide_eq_true
    (intAllRange0 1096 (fun x => decide (adRoundTrip x = GregorianResult.date x)) ?_ g h0 h1)
  rfl

/-- C2 witness: the round trip at Gregorian day number 400. -/
theorem ad_bs_ad_round_trip_witness :
    (getNewYearDateInfo 400).isSome = true ∧ adRoundTrip 400 = GregorianResult.date 400 :=
  ⟨rfl, ad_bs_ad_round_trip 400 rfl⟩

/-- C3: evaluation of addDays at the failing input it diverges from the
spec's carry algorithm on.  Moving one day back from BS 2075-04-01
(Shrawan 1), the source adds the length of the month it leaves (Shrawan,
31 days, read before addMonths(-1)) and lands on 2075-03-31, while the
spec's algorithm adds the length of the month just moved into (Ashar,
32 days) and lands on the real last day 2075-03-32; both endpoints are
valid tabulated dates. -/
theorem addDays_negative_carry_diverges_from_spec :
    addDays (-1) ⟨some 2075, some 4, some 1⟩ = some ⟨some 2075, some 3, some 31⟩ ∧
    addDaysSpec (-1) ⟨some 2075, some 4, some 1⟩ = some ⟨some 2075, some 3, some 32⟩ ∧
    isDayValid 2075 4 1 = true ∧ isDayValid 2075 3 32 = true ∧
    isDayValid 2075 3 31 = true := by
  refine ⟨?_, ?_, ?_, ?_, ?_⟩ <;> decide

/-- C4: evaluation of the addDays inverse round trip at a failing input:
from the valid date BS 2075-03-32, addDays(1) followed by addDays(-1)
returns 2075-03-31, not the original date, because the negative carry uses
the pre-move month length. -/
theorem addDays_inverse_round_trip_fails :
    (addDays 1 ⟨some 2075, some 3, some 32⟩).bind (addDays (-1)) =
      some ⟨some 2075, some 3, some 31⟩ ∧
    isDayValid 2075 3 32 = true ∧
    some (⟨some 2075, some 3, some 31⟩ : BikramSambat) ≠
      some (⟨some 2075, some 3, some 32⟩ : BikramSambat) := by
  refine ⟨?_, ?_, ?_⟩ <;> decide

/-- C5: evaluation of toGregorian on unset input: both the instance method
on the unset state and the static variant on an undefined or unparseable
argument silently answer the current system date (the now sentinel) instead
of surfacing an error. -/
theorem toGregorian_unset_returns_now :
    toGregorian unsetBS = GregorianResult.now ∧
    (∀ parse, toGregorianStatic parse CtorArg.undef = GregorianResult.now) ∧
    (∀ parse text, parse text = none →
        toGregorianStatic parse (CtorArg.fromStr text) = GregorianResult.now) := by
  refine ⟨rfl, fun parse => rfl, fun parse text hp => ?_⟩
  simp only [toGregorianStatic, construct, hp]
  rfl

/-- C5 witness: the static variant on a string the parser rejects. -/
theorem toGregorian_unset_returns_now_witness :
    toGregorianStatic (fun _ => none) (CtorArg.fromStr ("2075-99-99")) = GregorianResult.now :=
  toGregorian_unset_returns_now.2.2 (fun _ => none) ("2075-99-99") rfl

/-- C6: evaluation of getNextMonth at the failing month 11: the index
arithmetic ((11 + 1) % 12 - 1 = -1) reads outside the month table and the
call answers undefined instead of the month-12 descriptor (and instead of
null). -/
theorem getNextMonth_month11_undefined :
    getNextMonth ⟨some 2075, some 11, some 10⟩ = JsMonthRes.jsUndefined := by decide

/-- C8: construction from a string and the static toBikramSambat never
throw on bad input: an undefined argument, a string the parser rejects, and
an undefined or invalid AD date all produce the all-unset state, and a
successful parse populates all three fields, so no partially-populated date
ever arises. -/
theorem construction_bad_input_yields_unset :
    (∀ parse text, parse text = none → construct parse (CtorArg.fromStr text) = unsetBS) ∧
    (∀ parse, construct parse CtorArg.undef = unsetBS) ∧
    toBikramSambat none = some unsetBS ∧
    (∀ parse text y m d, parse text = some (y, m, d) →
        construct parse (CtorArg.fromStr text) = ⟨some y, some m, some d⟩) := by
  refine ⟨fun parse text hp => ?_, fun parse => rfl, rfl, fun parse text y m d hp => ?_⟩
  · simp only [construct, hp, unsetBS]
  · simp only [construct, hp]

/-- C8 witness: a rejected string and an accepted one. -/
theorem construction_bad_input_yields_unset_witness :
    construct (fun _ => none) (CtorArg.fromStr ("bogus")) = unsetBS ∧
    construct (fun _ => some (2075, 1, 1)) (CtorArg.fromStr ("2075-01-01")) =
      ⟨some 2075, some 1, some 1⟩ :=
  ⟨construction_bad_input_yields_unset.1 (fun _ => none) ("bogus") rfl,
   construction_bad_input_yields_unset.2.2.2 (fun _ => some (2075, 1, 1)) ("2075-01-01")
     2075 1 1 rfl⟩

/-- The validity test toString performs: all three fields set and accepted
by isDayValid. -/
def validFields (s : BikramSambat) : Bool :=
  match s.year, s.month, s.day with
  | some y, some m, some d => isDayValid y m d
  | _, _, _ => false

/-- Decidable statement of the well-formedness of toString at one candidate
triple, vacuous off the valid days. -/
abbrev c9check (y m d : Int) : Bool :=
  decide (isDayValid y m d = true →
    wellFormedYMD (toString ⟨some y, some m, some d⟩) = true)

/-- Bridge from the decidable check to the well-formedness statement. -/
lemma c9check_apply (y m d : Int) (h : c9check y m d = true)
    (hv : isDayValid y m d = true) :
    wellFormedYMD (toString ⟨some y, some m, some d⟩) = true :=
  (of_decide_eq_true h) hv

/-- C9: toString yields exactly the "Invalid Date" marker on every unset or
invalid date and a well-formed zero-padded YYYY-MM-DD string on every set,
valid one, never anything partial; format likewise yields exactly the
marker on every unset or invalid date. -/
theorem toString_wellformed_or_invalid_marker :
    InvalidDate = "Invalid Date" ∧
    (∀ (s : BikramSambat) (fmt : String), validFields s = false →
        toString s = "Invalid Date" ∧ format s fmt = "Invalid Date") ∧
    (∀ y m d : Int, isDayValid y m d = true →
        wellFormedYMD (toString ⟨some y, some m, some d⟩) = true) := by
  refine ⟨rfl, fun s fmt hv => ?_, fun y m d hv => ?_⟩
  · have ht : toString s = "Invalid Date" := by
      obtain ⟨sy, sm, sd⟩ := s
      cases sy <;> cases sm <;> cases sd <;> try rfl
      simp only [validFields] at hv
      simp [toString, hv, InvalidDate]
    refine ⟨ht, ?_⟩
    simp [format, ht, InvalidDate]
  · obtain ⟨hy, hm1, hm2, hd1, hd2⟩ := isDayValid_facts y m d hv
    rcases hy with rfl | rfl | rfl <;> interval_cases m <;>
      · refine c9check_apply _ _ d (intAllRange1 32 _ ?_ d hd1 hd2) hv
        rfl

/-- C9 witness: the unset state formats to the marker and a valid date
formats well-formed. -/
theorem toString_wellformed_or_invalid_marker_witness :
    validFields unsetBS = false ∧
    toString unsetBS = "Invalid Date" ∧
    format unsetBS ("YYYY-MM-DD") = "Invalid Date" ∧
    isDayValid 2077 2 32 = true ∧
    wellFormedYMD (toString ⟨some 2077, some 2, some 32⟩) = true :=
  ⟨rfl,
   (toString_wellformed_or_invalid_marker.2.1 unsetBS ("YYYY-MM-DD") rfl).1,
   (toString_wellformed_or_invalid_marker.2.1 unsetBS ("YYYY-MM-DD") rfl).2,
   rfl,
   toString_wellformed_or_invalid_marker.2.2 2077 2 32 rfl⟩

/-- C10: addYears changes the year only and never clamps the day, so a
set-but-invalid state is reachable: the valid BS 2075-03-32 becomes
2076-03-32 although Ashar 2076 has only 31 days, and toString then yields
exactly the invalid marker; addMonths, by contrast, clamps the same day. -/
theorem addYears_never_clamps_day :
    (∀ (s : BikramSambat) (k y : Int), s.year = some y →
        addYears k s = ⟨some (y + k), s.month, s.day⟩) ∧
    addYears 1 ⟨some 2075, some 3, some 32⟩ = ⟨some 2076, some 3, some 32⟩ ∧
    isDayValid 2075 3 32 = true ∧
    isDayValid 2076 3 32 = false ∧
    toString ⟨some 2076, some 3, some 32⟩ = "Invalid Date" ∧
    addMonths 12 ⟨some 2075, some 3, some 32⟩ = some ⟨some 2076, some 3, some 31⟩ := by
  refine ⟨fun s k y hy => ?_, by decide, by decide, by decide, by decide, by decide⟩
  simp only [addYears, hy]

/-- C10 witness: addYears applied at a concrete set date. -/
theorem addYears_never_clamps_day_witness :
    (⟨some 2075, some 3, some 32⟩ : BikramSambat).year = some 2075 ∧
    addYears 1 ⟨some 2075, some 3, some 32⟩ = ⟨some (2075 + 1), some 3, some 32⟩ :=
  ⟨rfl, addYears_never_clamps_day.1 ⟨some 2075, some 3, some 32⟩ 1 2075 rfl⟩

end NDP
